import Mathlib

/-!
Shallow embedding of the Sensei4Stocks voice-playback slice
(`app.py` and `voice_generator.py`): message filters, audio rendering,
duration estimation, and the sequential playback refresh step, together
with theorems settling the specification claims.

Conventions: Python `os.getenv` is modelled by an environment
`String → Option String`; wall-clock times and durations are rationals;
Python dicts are association lists with overwrite-on-assign semantics;
IO effects (provider requests, file writes) are recorded in an explicit
effect trace, and exceptions raised by external libraries are supplied
by oracles.
-/

/-- An environment mapping variable names to values (`os.getenv`). -/
def Env : Type := String → Option String

/-- Python truthiness of an optional string (`if not api_key`). -/
def strTruthy : Option String → Bool
  | none => false
  | some s => s ≠ ""

/-- The `AGENT_VOICES` table of `voice_generator.py`: voice mapping for
multi-agent debate, with per-agent environment overrides. -/
def AGENT_VOICES (env : Env) : List (String × String) :=
  [ ("stock_finder_agent", (env "MURF_VOICE_STOCK_FINDER").getD "Matthew"),
    ("market_data_agent", (env "MURF_VOICE_MARKET_DATA").getD "Julia"),
    ("news_analyst_agent", (env "MURF_VOICE_NEWS_ANALYST").getD "Ken"),
    ("price_recommender_agent", (env "MURF_VOICE_RECOMMENDER").getD "Ruby"),
    ("supervisor", (env "MURF_VOICE_SUPERVISOR").getD "Emily"),
    ("default", (env "MURF_VOICE_ID").getD "Matthew") ]

/-- The keys of `AGENT_VOICES`, independent of the environment. -/
def agentVoiceKeys : List String :=
  ["stock_finder_agent", "market_data_agent", "news_analyst_agent",
   "price_recommender_agent", "supervisor", "default"]

/-- The five known agents of the pipeline (keys of `agent_icons` in
`run_stock_analysis`, and of `get_agent_display_info`). -/
def fiveAgents : List String :=
  ["stock_finder_agent", "market_data_agent", "news_analyst_agent",
   "price_recommender_agent", "supervisor"]

theorem agentVoices_keys (env : Env) :
    (AGENT_VOICES env).map Prod.fst = agentVoiceKeys := rfl

/-- Constant `MIN_STREAMING_CONTENT_LENGTH` of `app.py`. -/
def MIN_STREAMING_CONTENT_LENGTH : Nat := 50

/-- Constant `MIN_FINAL_CONTENT_LENGTH` of `app.py`. -/
def MIN_FINAL_CONTENT_LENGTH : Nat := 100

/-- Python `str.strip()`: remove whitespace from both ends of the string. -/
def pyStrip (s : String) : String :=
  String.mk (((s.data.dropWhile Char.isWhitespace).reverse.dropWhile
    Char.isWhitespace).reverse)

/-- A framework message as seen by `get_agent_name` / `parse_message_content`:
an optional agent name and a string content. -/
structure Msg where
  name : Option String
  content : String
deriving Repr, DecidableEq

/-- The streaming filter of `run_stock_analysis`: a message content is
accumulated iff it is truthy, its strip is truthy, and the stripped length
exceeds `MIN_STREAMING_CONTENT_LENGTH`. -/
def keptStreaming (content : String) : Bool :=
  content ≠ "" && pyStrip content ≠ "" &&
    (pyStrip content).length > MIN_STREAMING_CONTENT_LENGTH

/-- The final-history filter of `run_stock_analysis`: a message enters
`agent_messages` iff its agent name is truthy, its content is truthy with
truthy strip, the stripped length exceeds `MIN_FINAL_CONTENT_LENGTH`, and
the agent name is a key of `AGENT_VOICES`. -/
def keptFinal (env : Env) (m : Msg) : Bool :=
  match m.name with
  | none => false
  | some a =>
      a ≠ "" && m.content ≠ "" && pyStrip m.content ≠ "" &&
        ((pyStrip m.content).length > MIN_FINAL_CONTENT_LENGTH &&
          ((AGENT_VOICES env).lookup a).isSome)

/-- The duration estimate computed in `main` of `app.py`:
`estimated_duration = max(5, file_size / 48000)`. -/
def estimated_duration (file_size : Nat) : ℚ :=
  max 5 ((file_size : ℚ) / 48000)

/-- The adaptive refresh interval computed in `main` of `app.py`:
`refresh_interval = min(3000, max(1000, remaining * 500))`. -/
def refresh_interval (remaining : ℤ) : ℤ :=
  min 3000 (max 1000 (remaining * 500))

/-- Clamp as the spec words it: `clamp(x, lo, hi)`. -/
def clampSpec (x lo hi : ℤ) : ℤ := max lo (min x hi)

/-- An all-defaults environment (no variables set). -/
def envNone : Env := fun _ => none

/-- Python `str.title()` restricted to per-character casing: the first
character of each run of letters is uppercased, later ones lowercased. -/
def pyTitle (s : String) : String :=
  String.mk ((s.data.foldl
    (fun (acc : List Char × Bool) c =>
      if c.isAlpha then
        (acc.1 ++ [if acc.2 then c.toLower else c.toUpper], true)
      else (acc.1 ++ [c], false))
    ([], false)).1)

/-- Function `format_agent_name` of `voice_generator.py`:
`name.replace('_', ' ').title()`. -/
def format_agent_name (name : String) : String :=
  pyTitle (String.mk (name.data.map (fun c => if c = '_' then ' ' else c)))

/-- Function `get_murf_client` of `voice_generator.py`: `some ()` exactly
when the `MURF_API_KEY` credential is present and non-empty. -/
def get_murf_client (env : Env) : Option Unit :=
  if strTruthy (env "MURF_API_KEY") then some () else none

/-- The configuration error reported when the Murf credential is absent. -/
def murfKeyError : String :=
  "Voice generation requires MURF_API_KEY to be set in environment variables."

/-- An exception raised by the external client libraries, as caught by the
`except IOError` / `except Exception` arms. -/
inductive PyErr where
  | io (msg : String)
  | other (msg : String)
deriving Repr, DecidableEq

/-- An observable side effect of the rendering step: a provider request or
a file write. -/
inductive Effect where
  | request (voiceId text : String)
  | write (file : String)
deriving Repr, DecidableEq

/-- Voice lookup `AGENT_VOICES.get(agent_name, AGENT_VOICES["default"])`. -/
def voiceFor (env : Env) (agent : String) : String :=
  ((AGENT_VOICES env).lookup agent).getD
    (((AGENT_VOICES env).lookup "default").getD "Matthew")

/-- Python `os.path.join` for the relative paths used by the repository. -/
def pathJoin (dir file : String) : String :=
  if dir = "" then file
  else if dir.data.getLast? = some '/' then dir ++ file
  else dir ++ "/" ++ file

/-- Python dict assignment `d[k] = v` on an association list: overwrite the
existing binding in place, or append a new one. -/
def ainsert (k v : String) : List (String × String) → List (String × String)
  | [] => [(k, v)]
  | (k', v') :: t => if k' = k then (k, v) :: t else (k', v') :: ainsert k v t

/-- Function `generate_voice_output` of `voice_generator.py`. The oracle
`ex` stands for an exception raised by the provider stream or the file
write; the result is the returned `(output_file_path, error_message)`. -/
def generate_voice_output (env : Env) (ex : Option PyErr)
    (text output_file : String) (voice_id : Option String) :
    Option String × Option String :=
  match get_murf_client env with
  | none => (none, some murfKeyError)
  | some _ =>
      if text = "" ∨ pyStrip text = "" then
        (none, some "No text provided for voice generation.")
      else
        let _voice := match voice_id with
          | some v => if v ≠ "" then v else voiceFor env "default"
          | none => voiceFor env "default"
        match ex with
        | none => (some output_file, none)
        | some (PyErr.io m) => (none, some ("Error writing audio file: " ++ m))
        | some (PyErr.other m) =>
            (none, some ("Voice generation failed: " ++ m))

/-- The per-agent loop of `generate_individual_agent_audio`: skip
empty/whitespace-only texts, otherwise request synthesized speech, write
the clip, and record the agent in the mapping; an exception aborts the
batch with the corresponding error message. -/
def agentAudioLoop (env : Env) (ex : String → String → Option PyErr)
    (output_dir : String) :
    List (String × String) → List (String × String) → List Effect →
      ((Option (List (String × String)) × Option String) × List Effect)
  | [], acc, effs => ((some acc, none), effs)
  | (agent, content) :: rest, acc, effs =>
      if content = "" ∨ pyStrip content = "" then
        agentAudioLoop env ex output_dir rest acc effs
      else
        let voice_id := voiceFor env agent
        let full_text := format_agent_name agent ++ " speaking: " ++ content
        let output_file := pathJoin output_dir (agent ++ "_audio.wav")
        match ex agent content with
        | some (PyErr.io m) =>
            ((none, some ("Error writing audio file: " ++ m)),
              effs ++ [Effect.request voice_id full_text])
        | some (PyErr.other m) =>
            ((none, some ("Voice generation failed: " ++ m)),
              effs ++ [Effect.request voice_id full_text])
        | none =>
            agentAudioLoop env ex output_dir rest (ainsert agent output_file acc)
              (effs ++ [Effect.request voice_id full_text,
                Effect.write output_file])

/-- Function `generate_individual_agent_audio` of `voice_generator.py`,
returning the `(mapping, error)` pair together with the trace of provider
requests and file writes it performed. -/
def generate_individual_agent_audio (env : Env)
    (ex : String → String → Option PyErr)
    (agent_messages : List (String × String)) (output_dir : String) :
    (Option (List (String × String)) × Option String) × List Effect :=
  match get_murf_client env with
  | none => ((none, some murfKeyError), [])
  | some _ =>
      if agent_messages = [] then
        ((none, some "No agent messages to generate voice for."), [])
      else agentAudioLoop env ex output_dir agent_messages [] []

/-- The outcome of the primary Google speech-recognition path of
`transcribe_audio`: success, or one of the caught failures. -/
inductive GoogleOutcome where
  | ok (text : String)
  | unknownValue
  | requestError (e : String)
  | importError
  | otherError (e : String)
deriving Repr, DecidableEq

/-- The outcome of the Murf `voice_changer.convert` fallback: a response
whose optional transcription field may be absent or empty, or an
exception. -/
inductive MurfConvertOutcome where
  | ok (transcription : Option String)
  | exn (e : String)
deriving Repr, DecidableEq

/-- Python `a or b` on strings. -/
def pyOr (a b : String) : String := if a = "" then b else a

/-- The value of the `google_error` variable of `transcribe_audio` after
the primary path has run, per outcome. -/
def googleErrorMsg : GoogleOutcome → String
  | GoogleOutcome.ok _ => ""
  | GoogleOutcome.unknownValue =>
      "Could not understand the audio. Please speak clearly and try again."
  | GoogleOutcome.requestError _ =>
      "Could not connect to speech recognition service. Please check your internet connection."
  | GoogleOutcome.importError =>
      "SpeechRecognition library not installed."
  | GoogleOutcome.otherError e => "Speech recognition error: " ++ e

/-- The Murf fallback half of `transcribe_audio`, reached when the primary
Google path failed with accumulated error `googleError`. -/
def murfFallback (env : Env) (googleError : String)
    (mo : MurfConvertOutcome) : Option String × Option String :=
  match get_murf_client env with
  | none =>
      if googleError ≠ "" then (none, some googleError)
      else
        (none,
          some "Speech recognition failed and no fallback API key is configured.")
  | some _ =>
      match mo with
      | MurfConvertOutcome.ok (some t) =>
          if t ≠ "" then (some t, none)
          else
            (none, some (pyOr googleError
              "No transcription could be generated from the audio."))
      | MurfConvertOutcome.ok none =>
          (none, some (pyOr googleError
            "No transcription could be generated from the audio."))
      | MurfConvertOutcome.exn e =>
          (none, some (pyOr googleError ("Transcription error: " ++ e)))

/-- Function `transcribe_audio` of `voice_generator.py`, with the two
external calls replaced by outcome oracles: Google success returns the
transcript, every caught failure falls through to the Murf fallback. -/
def transcribe_audio (env : Env) (g : GoogleOutcome)
    (mo : MurfConvertOutcome) : Option String × Option String :=
  match g with
  | GoogleOutcome.ok t => (some t, none)
  | g' => murfFallback env (googleErrorMsg g') mo

/-- A `(result, error)` pair in which exactly one component is `None`. -/
def exclusiveOut {α : Type} (r : Option α × Option String) : Prop :=
  (r.1.isSome = true ∧ r.2 = none) ∨ (r.1 = none ∧ r.2.isSome = true)

/-- A 101-character all-letter string, longer than both thresholds. -/
def s101 : String := String.mk (List.replicate 101 'a')

lemma pyStrip_of_empty : pyStrip "" = "" := rfl

lemma ne_empty_of_length_pos {s : String} (h : 0 < s.length) : s ≠ "" := by
  intro he
  subst he
  simp at h

lemma source_ne_empty_of_strip_length_pos {s : String}
    (h : 0 < (pyStrip s).length) : s ≠ "" := by
  intro he
  subst he
  simp [pyStrip_of_empty] at h

lemma lookup_isSome_iff_mem_keys {α β : Type} [DecidableEq α]
    (a : α) (l : List (α × β)) :
    (l.lookup a).isSome ↔ a ∈ l.map Prod.fst := by
  induction l with
  | nil => simp
  | cons p t ih =>
      obtain ⟨k, v⟩ := p
      rw [List.lookup_cons, List.map_cons, List.mem_cons]
      by_cases h : a = k
      · subst h
        simp
      · have hb : (a == k) = false := beq_eq_false_iff_ne.mpr h
        rw [hb]
        simp only [ih]
        constructor
        · exact Or.inr
        · rintro (h1 | h1)
          · exact absurd h1 h
          · exact h1

/-- C2: the estimated clip duration is `max(5, byte_size / 48000)` seconds;
it is monotonically non-decreasing in the byte size, never below 5, and
takes the values 5, 5 and 10 at 0, 240000 and 480000 bytes. -/
theorem duration_estimate_spec :
    (∀ b : Nat, estimated_duration b = max 5 ((b : ℚ) / 48000)) ∧
    (∀ b₁ b₂ : Nat, b₁ ≤ b₂ → estimated_duration b₁ ≤ estimated_duration b₂) ∧
    (∀ b : Nat, 5 ≤ estimated_duration b) ∧
    estimated_duration 0 = 5 ∧ estimated_duration 240000 = 5 ∧
      estimated_duration 480000 = 10 := by
  refine ⟨fun b => rfl, ?_, fun b => le_max_left _ _, ?_, ?_, ?_⟩
  · intro b₁ b₂ h
    unfold estimated_duration
    have hc : (b₁ : ℚ) ≤ (b₂ : ℚ) := by exact_mod_cast h
    have : (b₁ : ℚ) / 48000 ≤ (b₂ : ℚ) / 48000 := by gcongr
    exact max_le_max le_rfl this
  all_goals norm_num [estimated_duration]

theorem duration_estimate_spec_witness :
    estimated_duration 3 ≤ estimated_duration 7 :=
  duration_estimate_spec.2.1 3 7 (by norm_num)

/-- C9: for every `remaining ≥ 0` the next refresh interval equals
`clamp(remaining * 500, 1000, 3000)` and always lies within
`[1000, 3000]` milliseconds. -/
theorem refresh_interval_spec :
    ∀ remaining : ℤ, 0 ≤ remaining →
      refresh_interval remaining = clampSpec (remaining * 500) 1000 3000 ∧
      1000 ≤ refresh_interval remaining ∧ refresh_interval remaining ≤ 3000 := by
  intro r _
  unfold refresh_interval clampSpec
  omega

theorem refresh_interval_spec_witness :
    refresh_interval 4 = clampSpec (4 * 500) 1000 3000 ∧
      1000 ≤ refresh_interval 4 ∧ refresh_interval 4 ≤ 3000 :=
  refresh_interval_spec 4 (by norm_num)

/-- C6: a message observed during streaming collection is retained by the
streaming filter iff its stripped text length exceeds 50 characters. -/
theorem streaming_filter_iff :
    ∀ content : String,
      keptStreaming content = true ↔
        (pyStrip content).length > MIN_STREAMING_CONTENT_LENGTH := by
  intro content
  unfold keptStreaming
  constructor
  · intro h
    simp only [Bool.and_eq_true, decide_eq_true_eq] at h
    exact h.2
  · intro h
    have h0 : 0 < (pyStrip content).length := by
      have : (50 : Nat) < (pyStrip content).length := h
      omega
    have h1 : pyStrip content ≠ "" := ne_empty_of_length_pos h0
    have h2 : content ≠ "" := source_ne_empty_of_strip_length_pos h0
    simp only [Bool.and_eq_true, decide_eq_true_eq]
    exact ⟨⟨h2, h1⟩, h⟩

theorem streaming_filter_iff_witness : keptStreaming s101 = true :=
  (streaming_filter_iff s101).mpr (by decide)

/-- C3 counterexample: a final-history message whose agent name is
`"default"` (the fallback key of `AGENT_VOICES`, not one of the five
pipeline agents) and whose stripped text has 101 characters is kept by
the final filter, so retention is not equivalent to
"length > 100 and the agent is one of the five known agents". -/
theorem final_filter_claim_counterexample :
    ¬ (keptFinal envNone ⟨some "default", s101⟩ = true ↔
        ((pyStrip s101).length > MIN_FINAL_CONTENT_LENGTH ∧
          "default" ∈ fiveAgents)) := by
  decide

/-- C3 (amended): a final-history message is kept iff its stripped text
length exceeds 100 characters and its agent name is a key of
`AGENT_VOICES`, i.e. one of the five known agents or `"default"`. -/
theorem final_filter_iff :
    ∀ (env : Env) (m : Msg),
      keptFinal env m = true ↔
        ((pyStrip m.content).length > MIN_FINAL_CONTENT_LENGTH ∧
          ∃ a, m.name = some a ∧ a ∈ agentVoiceKeys) := by
  intro env m
  obtain ⟨name, content⟩ := m
  cases name with
  | none => simp [keptFinal]
  | some a =>
      unfold keptFinal
      simp only [Bool.and_eq_true, decide_eq_true_eq, Option.some.injEq]
      constructor
      · intro h
        refine ⟨h.2.1, a, rfl, ?_⟩
        have := h.2.2
        rw [← agentVoices_keys env]
        exact (lookup_isSome_iff_mem_keys a (AGENT_VOICES env)).mp this
      · rintro ⟨hlen, a', ha', hmem⟩
        subst ha'
        have h0 : 0 < (pyStrip content).length := by
          have : (100 : Nat) < (pyStrip content).length := hlen
          omega
        have hks : ((AGENT_VOICES env).lookup a).isSome := by
          rw [lookup_isSome_iff_mem_keys, agentVoices_keys env]
          exact hmem
        have hane : a ≠ "" := by
          simp only [agentVoiceKeys, List.mem_cons, List.mem_singleton,
            List.not_mem_nil, or_false] at hmem
          rcases hmem with h | h | h | h | h | h <;> subst h <;> decide
        exact ⟨⟨⟨hane, source_ne_empty_of_strip_length_pos h0⟩,
          ne_empty_of_length_pos h0⟩, hlen, hks⟩

theorem final_filter_iff_witness :
    keptFinal envNone ⟨some "supervisor", s101⟩ = true :=
  (final_filter_iff envNone ⟨some "supervisor", s101⟩).mpr (by decide)

lemma lookup_ainsert_isSome (k v a : String) (l : List (String × String)) :
    ((ainsert k v l).lookup a).isSome ↔ (a = k ∨ (l.lookup a).isSome) := by
  induction l with
  | nil =>
      by_cases h : a = k
      · subst h
        simp [ainsert, List.lookup_cons]
      · have hb : (a == k) = false := beq_eq_false_iff_ne.mpr h
        simp [ainsert, List.lookup_cons, hb, h]
  | cons p t ih =>
      obtain ⟨k', v'⟩ := p
      by_cases hk : k' = k
      · subst hk
        by_cases h : a = k'
        · subst h
          simp [ainsert, List.lookup_cons]
        · have hb : (a == k') = false := beq_eq_false_iff_ne.mpr h
          simp [ainsert, List.lookup_cons, hb, h]
      · by_cases h : a = k'
        · have hb : (a == k') = true := beq_iff_eq.mpr h
          simp [ainsert, hk, List.lookup_cons, hb]
        · have hb : (a == k') = false := beq_eq_false_iff_ne.mpr h
          simp [ainsert, hk, List.lookup_cons, hb, ih]

lemma agentAudioLoop_ok (env : Env) (ex : String → String → Option PyErr)
    (dir : String) :
    ∀ (msgs acc : List (String × String)) (effs : List Effect),
      (∀ a c, (a, c) ∈ msgs → pyStrip c ≠ "" → ex a c = none) →
      (agentAudioLoop env ex dir msgs acc effs).1.2 = none ∧
      (agentAudioLoop env ex dir msgs acc effs).1.1.isSome = true ∧
      ∀ a,
        (((agentAudioLoop env ex dir msgs acc effs).1.1.getD []).lookup
            a).isSome = true
          ↔ ((acc.lookup a).isSome = true ∨
              ∃ c, (a, c) ∈ msgs ∧ pyStrip c ≠ "") := by
  intro msgs
  induction msgs with
  | nil =>
      intro acc effs _
      refine ⟨rfl, rfl, fun a => ?_⟩
      simp [agentAudioLoop]
  | cons p rest ih =>
      obtain ⟨a₀, c₀⟩ := p
      intro acc effs hex
      have hex' : ∀ a c, (a, c) ∈ rest → pyStrip c ≠ "" → ex a c = none :=
        fun a c hm => hex a c (List.mem_cons_of_mem _ hm)
      by_cases hskip : c₀ = "" ∨ pyStrip c₀ = ""
      · have hstrip : pyStrip c₀ = "" := by
          rcases hskip with h | h
          · subst h
            rfl
          · exact h
        have heq : agentAudioLoop env ex dir ((a₀, c₀) :: rest) acc effs =
            agentAudioLoop env ex dir rest acc effs := by
          simp only [agentAudioLoop]
          rw [if_pos hskip]
        obtain ⟨h1, h2, h3⟩ := ih acc effs hex'
        refine ⟨by rw [heq]; exact h1, by rw [heq]; exact h2, fun a => ?_⟩
        rw [heq, h3 a]
        have hmem : (∃ c, (a, c) ∈ (a₀, c₀) :: rest ∧ pyStrip c ≠ "") ↔
            (∃ c, (a, c) ∈ rest ∧ pyStrip c ≠ "") := by
          constructor
          · rintro ⟨c, hm, hp⟩
            rcases List.mem_cons.mp hm with hc | hc
            · rw [Prod.ext_iff] at hc
              obtain ⟨-, h₂⟩ := hc
              subst h₂
              exact absurd hstrip hp
            · exact ⟨c, hc, hp⟩
          · rintro ⟨c, hm, hp⟩
            exact ⟨c, List.mem_cons_of_mem _ hm, hp⟩
        rw [hmem]
      · have hstrip : pyStrip c₀ ≠ "" := fun h => hskip (Or.inr h)
        have hx : ex a₀ c₀ = none :=
          hex a₀ c₀ (List.mem_cons_self _ _) hstrip
        have heq : agentAudioLoop env ex dir ((a₀, c₀) :: rest) acc effs =
            agentAudioLoop env ex dir rest
              (ainsert a₀ (pathJoin dir (a₀ ++ "_audio.wav")) acc)
              (effs ++ [Effect.request (voiceFor env a₀)
                  (format_agent_name a₀ ++ " speaking: " ++ c₀),
                Effect.write (pathJoin dir (a₀ ++ "_audio.wav"))]) := by
          simp only [agentAudioLoop]
          rw [if_neg hskip, hx]
        obtain ⟨h1, h2, h3⟩ := ih _ _ hex'
        refine ⟨by rw [heq]; exact h1, by rw [heq]; exact h2, fun a => ?_⟩
        rw [heq, h3 a, lookup_ainsert_isSome]
        constructor
        · rintro ((rfl | hacc) | ⟨c, hm, hp⟩)
          · exact Or.inr ⟨c₀, List.mem_cons_self _ _, hstrip⟩
          · exact Or.inl hacc
          · exact Or.inr ⟨c, List.mem_cons_of_mem _ hm, hp⟩
        · rintro (hacc | ⟨c, hm, hp⟩)
          · exact Or.inl (Or.inr hacc)
          · rcases List.mem_cons.mp hm with hc | hc
            · rw [Prod.ext_iff] at hc
              exact Or.inl (Or.inl hc.1)
            · exact Or.inr ⟨c, hc, hp⟩

/-- C7: when the voice-provider credential is absent, the rendering step
returns the configuration error with no mapping and performs no provider
request and no file write (the effect trace is empty). -/
theorem rendering_fail_fast :
    ∀ (env : Env) (ex : String → String → Option PyErr)
      (msgs : List (String × String)) (dir : String),
      get_murf_client env = none →
      generate_individual_agent_audio env ex msgs dir =
        ((none, some murfKeyError), []) := by
  intro env ex msgs dir hk
  unfold generate_individual_agent_audio
  rw [hk]

theorem rendering_fail_fast_witness :
    generate_individual_agent_audio envNone (fun _ _ => none)
        [("supervisor", s101)] "." = ((none, some murfKeyError), []) :=
  rendering_fail_fast envNone (fun _ _ => none) [("supervisor", s101)] "." rfl

/-- C8: with a configured client, a non-empty batch and no provider or
write exception on the non-empty texts, the rendering step reports no
error and returns a mapping whose keys are exactly the agents of the
batch with non-whitespace text; empty-text pairs are skipped silently. -/
theorem rendering_skips_empty :
    ∀ (env : Env) (ex : String → String → Option PyErr)
      (msgs : List (String × String)) (dir : String),
      get_murf_client env = some () →
      msgs ≠ [] →
      (∀ a c, (a, c) ∈ msgs → pyStrip c ≠ "" → ex a c = none) →
      (generate_individual_agent_audio env ex msgs dir).1.2 = none ∧
      (generate_individual_agent_audio env ex msgs dir).1.1.isSome = true ∧
      ∀ a,
        (((generate_individual_agent_audio env ex msgs
              dir).1.1.getD []).lookup a).isSome = true
          ↔ ∃ c, (a, c) ∈ msgs ∧ pyStrip c ≠ "" := by
  intro env ex msgs dir hk hne hex
  have heq : generate_individual_agent_audio env ex msgs dir =
      agentAudioLoop env ex dir msgs [] [] := by
    unfold generate_individual_agent_audio
    rw [hk, if_neg hne]
  obtain ⟨h1, h2, h3⟩ := agentAudioLoop_ok env ex dir msgs [] [] hex
  rw [heq]
  refine ⟨h1, h2, fun a => ?_⟩
  rw [h3 a]
  simp

/-- An environment carrying only the Murf credential. -/
def envWithKey : Env := fun v => if v = "MURF_API_KEY" then some "murf-key" else none

/-- A batch with one whitespace-only agent and one substantial agent. -/
def msgsC8 : List (String × String) :=
  [("supervisor", "   "), ("market_data_agent", s101)]

theorem rendering_skips_empty_witness :
    (generate_individual_agent_audio envWithKey (fun _ _ => none) msgsC8
        ".").1.2 = none ∧
    (((generate_individual_agent_audio envWithKey (fun _ _ => none) msgsC8
          ".").1.1.getD []).lookup "market_data_agent").isSome = true ∧
    (((generate_individual_agent_audio envWithKey (fun _ _ => none) msgsC8
          ".").1.1.getD []).lookup "supervisor").isSome = false := by
  obtain ⟨h1, h2, h3⟩ := rendering_skips_empty envWithKey (fun _ _ => none)
    msgsC8 "." (by decide) (by decide) (fun a c _ _ => rfl)
  refine ⟨h1, (h3 "market_data_agent").mpr
    ⟨s101, by simp [msgsC8], by decide⟩, ?_⟩
  have hnot : ¬ ∃ c, ("supervisor", c) ∈ msgsC8 ∧ pyStrip c ≠ "" := by
    rintro ⟨c, hm, hp⟩
    simp only [msgsC8, List.mem_cons, List.not_mem_nil, or_false,
      Prod.mk.injEq] at hm
    rcases hm with ⟨-, rfl⟩ | ⟨hagent, -⟩
    · exact hp (by decide)
    · exact absurd hagent (by decide)
  cases hx : (((generate_individual_agent_audio envWithKey
      (fun _ _ => none) msgsC8 ".").1.1.getD []).lookup
        "supervisor").isSome with
  | false => rfl
  | true => exact absurd ((h3 "supervisor").mp hx) hnot

lemma agentAudioLoop_exclusive (env : Env)
    (ex : String → String → Option PyErr) (dir : String) :
    ∀ (msgs acc : List (String × String)) (effs : List Effect),
      exclusiveOut (agentAudioLoop env ex dir msgs acc effs).1 := by
  intro msgs
  induction msgs with
  | nil =>
      intro acc effs
      left
      exact ⟨rfl, rfl⟩
  | cons p rest ih =>
      obtain ⟨a₀, c₀⟩ := p
      intro acc effs
      by_cases hskip : c₀ = "" ∨ pyStrip c₀ = ""
      · have heq : agentAudioLoop env ex dir ((a₀, c₀) :: rest) acc effs =
            agentAudioLoop env ex dir rest acc effs := by
          simp only [agentAudioLoop]
          rw [if_pos hskip]
        rw [heq]
        exact ih acc effs
      · cases hx : ex a₀ c₀ with
        | none =>
            have heq : agentAudioLoop env ex dir ((a₀, c₀) :: rest) acc effs =
                agentAudioLoop env ex dir rest
                  (ainsert a₀ (pathJoin dir (a₀ ++ "_audio.wav")) acc)
                  (effs ++ [Effect.request (voiceFor env a₀)
                      (format_agent_name a₀ ++ " speaking: " ++ c₀),
                    Effect.write (pathJoin dir (a₀ ++ "_audio.wav"))]) := by
              simp only [agentAudioLoop]
              rw [if_neg hskip, hx]
            rw [heq]
            exact ih _ _
        | some e =>
            cases e with
            | io m =>
                have heq :
                    agentAudioLoop env ex dir ((a₀, c₀) :: rest) acc effs =
                      ((none, some ("Error writing audio file: " ++ m)),
                        effs ++ [Effect.request (voiceFor env a₀)
                          (format_agent_name a₀ ++ " speaking: " ++ c₀)]) := by
                  simp only [agentAudioLoop]
                  rw [if_neg hskip, hx]
                rw [heq]
                right
                exact ⟨rfl, rfl⟩
            | other m =>
                have heq :
                    agentAudioLoop env ex dir ((a₀, c₀) :: rest) acc effs =
                      ((none, some ("Voice generation failed: " ++ m)),
                        effs ++ [Effect.request (voiceFor env a₀)
                          (format_agent_name a₀ ++ " speaking: " ++ c₀)]) := by
                  simp only [agentAudioLoop]
                  rw [if_neg hskip, hx]
                rw [heq]
                right
                exact ⟨rfl, rfl⟩

lemma murfFallback_exclusive (env : Env) (ge : String)
    (mo : MurfConvertOutcome) : exclusiveOut (murfFallback env ge mo) := by
  unfold murfFallback
  cases get_murf_client env with
  | none =>
      dsimp only
      split_ifs <;> (right; exact ⟨rfl, rfl⟩)
  | some u =>
      cases mo with
      | ok tr =>
          cases tr with
          | none =>
              right
              exact ⟨rfl, rfl⟩
          | some t2 =>
              dsimp only
              split_ifs
              · left
                exact ⟨rfl, rfl⟩
              · right
                exact ⟨rfl, rfl⟩
      | exn e =>
          right
          exact ⟨rfl, rfl⟩

/-- C10: each public voice function returns a pair in which exactly one of
the result and the error message is `None`: a result with no error on
success, and no result with an error message on every failure path. The
functions are total Lean definitions, so no exception escapes. -/
theorem voice_api_result_shape :
    ∀ (env : Env) (ex : Option PyErr) (text outFile : String)
      (vid : Option String) (ex2 : String → String → Option PyErr)
      (msgs : List (String × String)) (dir : String)
      (g : GoogleOutcome) (mo : MurfConvertOutcome),
      exclusiveOut (generate_voice_output env ex text outFile vid) ∧
      exclusiveOut (generate_individual_agent_audio env ex2 msgs dir).1 ∧
      exclusiveOut (transcribe_audio env g mo) := by
  intro env ex text outFile vid ex2 msgs dir g mo
  refine ⟨?_, ?_, ?_⟩
  · unfold generate_voice_output
    cases get_murf_client env with
    | none =>
        right
        exact ⟨rfl, rfl⟩
    | some u =>
        by_cases ht : text = "" ∨ pyStrip text = ""
        · rw [if_pos ht]
          right
          exact ⟨rfl, rfl⟩
        · rw [if_neg ht]
          cases ex with
          | none =>
              left
              exact ⟨rfl, rfl⟩
          | some e =>
              cases e with
              | io m =>
                  right
                  exact ⟨rfl, rfl⟩
              | other m =>
                  right
                  exact ⟨rfl, rfl⟩
  · unfold generate_individual_agent_audio
    cases get_murf_client env with
    | none =>
        right
        exact ⟨rfl, rfl⟩
    | some u =>
        by_cases hm : msgs = []
        · rw [if_pos hm]
          right
          exact ⟨rfl, rfl⟩
        · rw [if_neg hm]
          exact agentAudioLoop_exclusive env ex2 dir msgs [] []
  · unfold transcribe_audio
    cases g with
    | ok t =>
        left
        exact ⟨rfl, rfl⟩
    | unknownValue => exact murfFallback_exclusive env _ mo
    | requestError e1 => exact murfFallback_exclusive env _ mo
    | importError => exact murfFallback_exclusive env _ mo
    | otherError e1 => exact murfFallback_exclusive env _ mo

/-- The voice-playback session state of `app.py`: the fields set by
`reset_voice_state`, plus the `audio_durations` mapping and the dynamic
`audio_start_<agent>` keys (collected in `audio_start`). -/
structure PlaybackState where
  analysis_complete : Bool
  voice_playing : Bool
  voice_playback_complete : Bool
  agent_audio_files : List (String × String)
  current_playing_agent : Option String
  playback_index : Nat
  agents_to_play : List String
  audio_durations : List (String × ℚ)
  audio_start : List (String × ℚ)
deriving Repr, DecidableEq

/-- Function `reset_voice_state` of `app.py`: reset the seven listed
session variables. The `audio_start_<agent>` keys and `audio_durations`
are not among them and keep their values. -/
def reset_voice_state (s : PlaybackState) : PlaybackState :=
  { s with
    analysis_complete := false
    voice_playing := false
    voice_playback_complete := false
    agent_audio_files := []
    current_playing_agent := none
    playback_index := 0
    agents_to_play := [] }

/-- One refresh of the sequential-playback section of `main` in `app.py`.
`fs` is the set of files present on disk and readable at this turn and
`now` is the value returned by `time.time()`. When playback is active and
the index is in range, the current agent is marked active; if its clip
file is present, a start timestamp is recorded on first entry, and the
index advances (discarding the timestamp) once the elapsed time reaches
the estimated duration (default 10 when no estimate is stored). When the
index has reached the end of the play list, playback is marked complete:
the active-agent marker is cleared, the index reset to 0, and the
completion flag set. -/
def refreshStep (fs : List String) (now : ℚ) (s : PlaybackState) :
    PlaybackState :=
  if s.voice_playing = true ∧ s.agent_audio_files ≠ [] then
    if h : s.playback_index < s.agents_to_play.length then
      let agent := s.agents_to_play.get ⟨s.playback_index, h⟩
      match s.agent_audio_files.lookup agent with
      | some audio_file =>
          if audio_file ≠ "" ∧ audio_file ∈ fs then
            let starts :=
              match s.audio_start.lookup agent with
              | some _ => s.audio_start
              | none => (agent, now) :: s.audio_start
            let start := (starts.lookup agent).getD now
            let duration := (s.audio_durations.lookup agent).getD 10
            if duration ≤ now - start then
              { s with
                current_playing_agent := some agent
                audio_start := starts.filter (fun p => p.1 != agent)
                playback_index := s.playback_index + 1 }
            else
              { s with
                current_playing_agent := some agent
                audio_start := starts }
          else { s with current_playing_agent := some agent }
      | none => { s with current_playing_agent := some agent }
    else
      { s with
        voice_playing := false
        current_playing_agent := none
        playback_index := 0
        voice_playback_complete := true }
  else s

lemma lookup_filter_self_none (k : String) (l : List (String × ℚ)) :
    (l.filter (fun p => p.1 != k)).lookup k = none := by
  induction l with
  | nil => rfl
  | cons p t ih =>
      obtain ⟨k', v⟩ := p
      by_cases h : k' = k
      · subst h
        simpa [List.filter_cons] using ih
      · have hb : (k' != k) = true := bne_iff_ne.mpr h
        have hb2 : (k == k') = false := beq_eq_false_iff_ne.mpr (Ne.symm h)
        simp [List.filter_cons, hb, List.lookup_cons, hb2, ih]

/-- C1: during active playback with the index in range, the clip file
present, a start timestamp and a duration estimate recorded for the
current agent, a refresh advances the index by one and discards the
timestamp exactly when the elapsed wall-clock time reaches or exceeds
the estimated duration; and a refresh with the index equal to the
play-list length clears the active-agent marker, resets the index to 0,
stops playback and sets the completion flag. -/
theorem playback_refresh_spec :
    ∀ (fs : List String) (now : ℚ) (s : PlaybackState),
      s.voice_playing = true →
      s.agent_audio_files ≠ [] →
      ((∀ (hi : s.playback_index < s.agents_to_play.length)
          (f : String) (start d : ℚ),
          s.agent_audio_files.lookup
            (s.agents_to_play.get ⟨s.playback_index, hi⟩) = some f →
          f ≠ "" → f ∈ fs →
          s.audio_start.lookup
            (s.agents_to_play.get ⟨s.playback_index, hi⟩) = some start →
          s.audio_durations.lookup
            (s.agents_to_play.get ⟨s.playback_index, hi⟩) = some d →
          (((refreshStep fs now s).playback_index = s.playback_index + 1 ∧
              (refreshStep fs now s).audio_start.lookup
                (s.agents_to_play.get ⟨s.playback_index, hi⟩) = none) ↔
            d ≤ now - start)) ∧
        (s.playback_index = s.agents_to_play.length →
          (refreshStep fs now s).current_playing_agent = none ∧
          (refreshStep fs now s).playback_index = 0 ∧
          (refreshStep fs now s).voice_playing = false ∧
          (refreshStep fs now s).voice_playback_complete = true)) := by
  intro fs now s hp hne
  constructor
  · intro hi f start d hf hf1 hf2 hstart hdur
    simp only [refreshStep]
    rw [if_pos ⟨hp, hne⟩, dif_pos hi]
    simp only [hf]
    rw [if_pos ⟨hf1, hf2⟩]
    simp only [hstart, Option.getD_some, hdur]
    split_ifs with hd
    · exact iff_of_true ⟨rfl, lookup_filter_self_none _ _⟩ hd
    · constructor
      · rintro ⟨hidx, -⟩
        have h2 : s.playback_index = s.playback_index + 1 := hidx
        omega
      · intro hcon
        exact absurd hcon hd
  · intro hlen
    have hnin : ¬ s.playback_index < s.agents_to_play.length := by omega
    simp only [refreshStep]
    rw [if_pos ⟨hp, hne⟩, dif_neg hnin]
    exact ⟨rfl, rfl, rfl, rfl⟩

/-- A concrete one-agent playback state with a recorded start timestamp. -/
def sW : PlaybackState :=
  { analysis_complete := true
    voice_playing := true
    voice_playback_complete := false
    agent_audio_files := [("supervisor", "supervisor_audio.wav")]
    current_playing_agent := some "supervisor"
    playback_index := 0
    agents_to_play := ["supervisor"]
    audio_durations := [("supervisor", 5)]
    audio_start := [("supervisor", 0)] }

/-- The file system holding the clip of `sW`. -/
def fsW : List String := ["supervisor_audio.wav"]

theorem playback_refresh_spec_witness :
    (refreshStep fsW 6 sW).playback_index = sW.playback_index + 1 ∧
      (refreshStep fsW 6 sW).audio_start.lookup "supervisor" = none :=
  ((playback_refresh_spec fsW 6 sW rfl (by decide)).1 (by decide)
    "supervisor_audio.wav" 0 5 rfl (by decide) (by decide) rfl rfl).mpr
    (by norm_num)

/-- A refresh of state `s` at time `t` that completes the wait for the
current agent: playback is active, the index is in range, the clip file
is present and readable, a start timestamp is recorded and the elapsed
time has reached the estimated duration. -/
def CompletesWait (fs : List String) (t : ℚ) (s : PlaybackState) : Prop :=
  s.voice_playing = true ∧ s.agent_audio_files ≠ [] ∧
  ∃ hi : s.playback_index < s.agents_to_play.length,
    ∃ f start,
      s.agent_audio_files.lookup
        (s.agents_to_play.get ⟨s.playback_index, hi⟩) = some f ∧
      f ≠ "" ∧ f ∈ fs ∧
      s.audio_start.lookup
        (s.agents_to_play.get ⟨s.playback_index, hi⟩) = some start ∧
      (s.audio_durations.lookup
        (s.agents_to_play.get ⟨s.playback_index, hi⟩)).getD 10 ≤ t - start

/-- A sequence of `n` refresh calls each of which completes a wait. -/
inductive CompletedRun (fs : List String) :
    PlaybackState → PlaybackState → Nat → Prop where
  | refl (s : PlaybackState) : CompletedRun fs s s 0
  | step {s s' : PlaybackState} {n : Nat} (t : ℚ) :
      CompletedRun fs s s' n → CompletesWait fs t s' →
      CompletedRun fs s (refreshStep fs t s') (n + 1)

lemma refreshStep_advance (fs : List String) (t : ℚ) (s : PlaybackState)
    (hw : CompletesWait fs t s) :
    (refreshStep fs t s).playback_index = s.playback_index + 1 := by
  obtain ⟨hp, hne, hi, f, start, hf, hf1, hf2, hstart, hle⟩ := hw
  simp only [refreshStep]
  rw [if_pos ⟨hp, hne⟩, dif_pos hi]
  simp only [hf]
  rw [if_pos ⟨hf1, hf2⟩]
  simp only [hstart, Option.getD_some]
  rw [if_pos hle]

/-- An active playback state whose index equals the play-list length. -/
def sTerm : PlaybackState :=
  { analysis_complete := true
    voice_playing := true
    voice_playback_complete := false
    agent_audio_files := [("supervisor", "supervisor_audio.wav")]
    current_playing_agent := some "supervisor"
    playback_index := 1
    agents_to_play := ["supervisor"]
    audio_durations := [("supervisor", 5)]
    audio_start := [] }

/-- C4 counterexample: a refresh of an active state whose index has
already reached the play-list length resets the index to 0, so the index
is not monotone non-decreasing across arbitrary refresh calls. -/
theorem playback_index_monotone_counterexample :
    (refreshStep [] 0 sTerm).playback_index < sTerm.playback_index := by
  decide

/-- C4 (amended): the playback index never decreases on a refresh while
it is below the play-list length (only the terminal completion refresh
resets it to 0), and a run of `n` wait-completing refreshes increases it
by exactly `n`; in particular, from index 0 it reaches exactly the
play-list length after that many completed waits. -/
theorem playback_index_monotone_run :
    (∀ (fs : List String) (t : ℚ) (s : PlaybackState),
        s.playback_index < s.agents_to_play.length →
        s.playback_index ≤ (refreshStep fs t s).playback_index) ∧
    (∀ (fs : List String) (s s' : PlaybackState) (n : Nat),
        CompletedRun fs s s' n →
        s'.playback_index = s.playback_index + n) := by
  constructor
  · intro fs t s hi
    by_cases h1 : s.voice_playing = true ∧ s.agent_audio_files ≠ []
    · simp only [refreshStep]
      rw [if_pos h1, dif_pos hi]
      cases hf : s.agent_audio_files.lookup
          (s.agents_to_play.get ⟨s.playback_index, hi⟩) with
      | none => exact le_refl _
      | some f =>
          dsimp only
          by_cases h2 : f ≠ "" ∧ f ∈ fs
          · rw [if_pos h2]
            split_ifs
            · exact Nat.le_succ _
            · exact le_refl _
          · rw [if_neg h2]
    · simp only [refreshStep]
      rw [if_neg h1]
  · intro fs s s' n hrun
    induction hrun with
    | refl => rfl
    | step t hrun hw ih =>
        rw [refreshStep_advance _ _ _ hw, ih]
        omega

/-- A concrete active playback state at index 0 of a one-entry list. -/
def sRun : PlaybackState :=
  { analysis_complete := true
    voice_playing := true
    voice_playback_complete := false
    agent_audio_files := [("supervisor", "supervisor_audio.wav")]
    current_playing_agent := none
    playback_index := 0
    agents_to_play := ["supervisor"]
    audio_durations := [("supervisor", 5)]
    audio_start := [] }

theorem playback_index_monotone_run_witness :
    sRun.playback_index ≤ (refreshStep [] 0 sRun).playback_index ∧
      sRun.playback_index = sRun.playback_index + 0 :=
  ⟨playback_index_monotone_run.1 [] 0 sRun (by decide),
    playback_index_monotone_run.2 [] sRun sRun 0 (CompletedRun.refl sRun)⟩

/-- A session state carrying a stale per-agent clip-start timestamp. -/
def sReset : PlaybackState :=
  { analysis_complete := true
    voice_playing := true
    voice_playback_complete := true
    agent_audio_files := [("supervisor", "supervisor_audio.wav")]
    current_playing_agent := some "supervisor"
    playback_index := 2
    agents_to_play := ["supervisor"]
    audio_durations := []
    audio_start := [("supervisor", 100)] }

/-- C5 counterexample: `reset_voice_state` leaves a stale per-agent
clip-start timestamp in place, so starting a new run does not clear the
per-agent clip-start timestamps. -/
theorem reset_voice_state_counterexample :
    (reset_voice_state sReset).audio_start ≠ [] := by
  decide

/-- C5 (amended): starting a new analysis run unconditionally resets the
active agent to none, the index to 0, the clip mapping and play list to
empty and the completion, playing and analysis flags to false, but the
per-agent clip-start timestamps are left untouched. -/
theorem reset_voice_state_spec :
    ∀ s : PlaybackState,
      (reset_voice_state s).current_playing_agent = none ∧
      (reset_voice_state s).playback_index = 0 ∧
      (reset_voice_state s).agent_audio_files = [] ∧
      (reset_voice_state s).agents_to_play = [] ∧
      (reset_voice_state s).voice_playback_complete = false ∧
      (reset_voice_state s).voice_playing = false ∧
      (reset_voice_state s).analysis_complete = false ∧
      (reset_voice_state s).audio_start = s.audio_start :=
  fun _ => ⟨rfl, rfl, rfl, rfl, rfl, rfl, rfl, rfl⟩
